import Mathlib

/-
  Verification development for the agentscope-extensions-nacos examples.

  The repository consists of four example scripts
  (agent_example.py, mcp_example.py, model_example.py, runtime_example.py)
  that wire an agent framework to a remote configuration store and a
  tool-invocation protocol.  The straight-line asynchronous code of the
  examples is embedded as explicit event traces and fuel-indexed loops;
  the configuration watcher, live-object registry, conversation driver
  and toolkit synchronisation that the examples assume are modelled from
  the specification, since their implementation is not among the given
  source files.
-/

namespace Nacos

/-- Modelled from the spec: the LiveAgentConfig snapshot of section 3 —
an immutable bundle of prompt text, model-invocation parameters and the
active tool-name set.  The implementation (package
agentscope_extension_nacos) is not among the given source files. -/
structure LiveAgentConfig where
  prompt : String
  modelParams : String
  toolNames : List String
deriving DecidableEq, Repr

/-- Modelled from the spec: the Config Watcher onChange step of section 4.1.
On each raw payload it parses; a parse failure is logged (the Bool result)
and keeps the last-known-good value; a parse success produces the new
snapshot.  The watcher implementation is not among the given source files. -/
def onChange (parse : String → Option LiveAgentConfig)
    (current : LiveAgentConfig) (raw : String) : LiveAgentConfig × Bool :=
  match parse raw with
  | some c => (c, false)
  | none => (current, true)

/-- Modelled from the spec: the registry state after the watcher has
processed a sequence of raw pushes in delivery order. -/
def processPushes (parse : String → Option LiveAgentConfig)
    (current : LiveAgentConfig) (raws : List String) : LiveAgentConfig :=
  raws.foldl (fun s raw => (onChange parse s raw).1) current

/-- Modelled from the spec: the Live Object Registry swap of section 4.2 —
atomically replaces the whole current snapshot with the new one. -/
def swap (_current newConfig : LiveAgentConfig) : LiveAgentConfig :=
  newConfig

/-- Modelled from the spec: the registry current snapshot after a sequence
of committed pushes, starting from the initial value (section 4.2). -/
def currentConfig (init : LiveAgentConfig) (pushes : List LiveAgentConfig) :
    LiveAgentConfig :=
  pushes.foldl swap init

/-- Modelled from the spec: one configuration access made by the
Conversation Driver during a turn, tagged with the snapshot it observes. -/
inductive Access where
  | modelCall (c : LiveAgentConfig)
  | toolResolution (c : LiveAgentConfig)
  | promptAssembly (c : LiveAgentConfig)
deriving DecidableEq, Repr

/-- The snapshot observed by a configuration access. -/
def snapshotOf : Access → LiveAgentConfig
  | .modelCall c => c
  | .toolResolution c => c
  | .promptAssembly c => c

/-- Modelled from the spec: one conversational turn of the Conversation
Driver (section 4.3) — it reads the registry once at the start of the turn
and uses that single snapshot for the model call, tool resolution and
prompt assembly. -/
def runTurn (c : LiveAgentConfig) : List Access :=
  [Access.modelCall c, Access.toolResolution c, Access.promptAssembly c]

/-- The registry value after a batch of swaps delivered during a turn
(last-write-wins by delivery order). -/
def applySwaps (c : LiveAgentConfig) (swaps : List LiveAgentConfig) :
    LiveAgentConfig :=
  swaps.foldl swap c

/-- Modelled from the spec: the Conversation Driver run over a schedule,
where the n-th schedule entry is the batch of configuration swaps delivered
concurrently with turn n.  Each turn observes the registry as of its own
start; swaps delivered during the turn are committed to the registry and
become visible from the next turn on. -/
def runTurns : LiveAgentConfig → List (List LiveAgentConfig) → List (List Access)
  | _, [] => []
  | c, swaps :: rest => runTurn c :: runTurns (applySwaps c swaps) rest

/-- Modelled from the spec: toolkit lookup of the tool list recorded for a
given tool-server name. -/
def lookupTools : String → List (String × List String) → Option (List String)
  | _, [] => none
  | k, e :: rest => if k = e.1 then some e.2 else lookupTools k rest

/-- Modelled from the spec: one toolkit sync of section 4.4 across all
registered servers.  The fetch result for an unreachable server is none and
its tools retain their last-known state; a reachable server's tools are
replaced by its newly declared list.  The sync is a total function: one
unreachable server never fails the whole refresh. -/
def syncServers (state : List (String × List String))
    (results : String → Option (List String)) : List (String × List String) :=
  state.map (fun e => (e.1, (results e.1).getD e.2))

/-- Modelled from the spec: the tool-set diff of section 4.4 — the add
events are the newly declared tools, the remove events are the tools no
longer declared. -/
def diffEvents (prev remote : List String) : List String × List String :=
  (remote.filter (fun t => decide (t ∉ prev)),
   prev.filter (fun t => decide (t ∉ remote)))

/-- Modelled from the spec: applying a batch of add and remove events to a
server's recorded tool list. -/
def applyEvents (prev : List String) (events : List String × List String) :
    List String :=
  prev.filter (fun t => decide (t ∉ events.2)) ++ events.1

/-- Modelled from the spec: one sync of a single server's tool set — diff
the previous and the newly declared sets, then apply the resulting add and
remove events. -/
def syncToolSet (prev remote : List String) : List String :=
  applyEvents prev (diffEvents prev remote)

/-- An event of the setup sequence of mcp_example.py (and the identical
setup of model_example.py): client creation, the explicit connect step of
the stateful client, registration with the toolkit, and later tool
invocations during the conversation. -/
inductive McpEvent where
  | createClient (name : String) (stateful : Bool)
  | createToolkit
  | connect (name : String)
  | register (name : String)
  | invoke (name : String)
deriving DecidableEq, Repr

/-- The straight-line setup of creating_react_agent in mcp_example.py:
a stateless client for nacos-mcp-1, a stateful client for nacos-mcp-2,
the DynamicToolkit, then the awaited connect of the stateful client, then
the two registrations (stateful first). -/
def mcpSetupTrace : List McpEvent :=
  [McpEvent.createClient "nacos-mcp-1" false,
   McpEvent.createClient "nacos-mcp-2" true,
   McpEvent.createToolkit,
   McpEvent.connect "nacos-mcp-2",
   McpEvent.register "nacos-mcp-2",
   McpEvent.register "nacos-mcp-1"]

/-- A whole execution of mcp_example.py: the fixed setup followed by the
tool invocations performed during the agent conversation, in order. -/
def mcpTrace (invocations : List String) : List McpEvent :=
  mcpSetupTrace ++ invocations.map McpEvent.invoke

/-- A text block of a message, as built by ThreadedTerminalInput. -/
structure TextBlock where
  type : String
  text : String
deriving DecidableEq, Repr

/-- The UserInputData value returned by ThreadedTerminalInput. -/
structure UserInputData where
  blocksInput : List TextBlock
  structuredInput : Option String
deriving DecidableEq, Repr

/-- How a user-input handler obtains the blocking input() result: either
off-loaded to an executor worker thread, or run directly on the
event-loop thread. -/
inductive InputAction where
  | runInExecutor (hint : String)
  | blockOnLoop (hint : String)
deriving DecidableEq, Repr

/-- ThreadedTerminalInput.__call__ from the example scripts: it awaits
loop.run_in_executor(None, input, self.input_hint) and wraps the returned
text in a UserInputData with a single text block and no structured input.
The first component is the action it performs to obtain the text, the
second the value it returns given the executor's result. -/
def threadedTerminalInputCall (inputHint : String) (executorResult : String) :
    InputAction × UserInputData :=
  (InputAction.runInExecutor inputHint,
   { blocksInput := [{ type := "text", text := executorResult }],
     structuredInput := none })

/-- The scheduling state of one task of the single-threaded cooperative
event loop: ready to run, suspended awaiting a worker-thread result, or
occupying the loop thread with a blocking call. -/
inductive TaskState where
  | ready
  | awaitingExecutor
  | blockingLoop
  | done
deriving DecidableEq, Repr

/-- The task state induced by an input action while the user input is
pending: an executor off-load suspends the task, a direct blocking call
occupies the loop thread. -/
def actionTaskState : InputAction → TaskState
  | .runInExecutor _ => TaskState.awaitingExecutor
  | .blockOnLoop _ => TaskState.blockingLoop

/-- Whether the event loop can run task i: the task is ready and no task
occupies the loop thread with a blocking call. -/
def loopCanRun (tasks : List TaskState) (i : Nat) : Bool :=
  (tasks.get? i == some TaskState.ready)
    && !(tasks.any (fun t => t == TaskState.blockingLoop))

/-- An event of the conversation loop of the example scripts, tagged with
its turn number.  Turn 0 is the initial user call before the loop; each
loop iteration is one turn: the awaited agent call, then the awaited user
call carrying the typed text. -/
inductive ConvEvent where
  | agentCallStart (turn : Nat)
  | agentCallEnd (turn : Nat) (reply : String)
  | userCallStart (turn : Nat)
  | userCallEnd (turn : Nat) (text : String)
deriving DecidableEq, Repr

/-- The turn an event belongs to. -/
def turnOf : ConvEvent → Nat
  | .agentCallStart t => t
  | .agentCallEnd t _ => t
  | .userCallStart t => t
  | .userCallEnd t _ => t

/-- The position of an event within its turn. -/
def stepRank : ConvEvent → Nat
  | .agentCallStart _ => 0
  | .agentCallEnd _ _ => 1
  | .userCallStart _ => 2
  | .userCallEnd _ _ => 3

/-- Strict temporal order of conversation events: earlier turn, or same
turn and earlier step. -/
def evBefore (a b : ConvEvent) : Prop :=
  turnOf a < turnOf b ∨ (turnOf a = turnOf b ∧ stepRank a < stepRank b)

/-- The observable outcome of running the conversation loop: its event
trace, the messages passed to the agent in order, the messages tested
against "exit" in order, and whether the loop exited via break. -/
structure ConvResult where
  trace : List ConvEvent
  agentInputs : List String
  exitChecked : List String
  terminated : Bool
deriving DecidableEq, Repr

/-- The while-true loop of creating_react_agent: await the agent on the
current message, await the user (whose typed texts form userStream, read
at successive indices), and break when the fresh user text equals "exit"
before the agent ever sees it.  Fuel bounds the number of iterations
modelled. -/
def runLoop (agent : String → String) (userStream : Nat → String) :
    Nat → Nat → Nat → String → ConvResult
  | 0, _, _, _ => ⟨[], [], [], false⟩
  | fuel + 1, turn, idx, msg =>
    let reply := agent msg
    let userMsg := userStream idx
    let evs := [ConvEvent.agentCallStart turn, ConvEvent.agentCallEnd turn reply,
                ConvEvent.userCallStart turn, ConvEvent.userCallEnd turn userMsg]
    if userMsg = "exit" then
      ⟨evs, [msg], [userMsg], true⟩
    else
      let rest := runLoop agent userStream fuel (turn + 1) (idx + 1) userMsg
      ⟨evs ++ rest.trace, msg :: rest.agentInputs,
       userMsg :: rest.exitChecked, rest.terminated⟩

/-- The whole conversation of creating_react_agent: the initial user call
(msg = await user(None), turn 0, never tested against "exit") followed by
the loop starting at turn 1 with the first typed text as message. -/
def conversation (agent : String → String) (userStream : Nat → String)
    (fuel : Nat) : ConvResult :=
  let first := userStream 0
  let r := runLoop agent userStream fuel 1 1 first
  ⟨ConvEvent.userCallStart 0 :: ConvEvent.userCallEnd 0 first :: r.trace,
   r.agentInputs, r.exitChecked, r.terminated⟩

/-- An event of run_deployment in runtime_example.py. -/
inductive RunEvent where
  | initListener
  | createAgent
  | runnerEnter
  | printRunnerCreated
  | deployCall
  | printDeployed
  | runnerExit
  | printServiceRunning
  | sleepKeepAlive (seconds : Nat)
deriving DecidableEq, Repr

/-- The LocalDeployManager built by deploy_agent. -/
structure LocalDeployManager where
  host : String
  port : Nat
deriving DecidableEq, Repr

/-- The deploy manager returned by deploy_agent (localhost:8090). -/
def deployAgentResult : LocalDeployManager :=
  { host := "localhost", port := 8090 }

/-- The event trace of run_deployment: the async-with create_runner block
(listener setup, agent creation, Runner enter) encloses only the
deploy_agent call; the Runner context exits, and only then the
keep-alive message and the 1000-second sleep run. -/
def runDeploymentTrace : List RunEvent :=
  [RunEvent.initListener, RunEvent.createAgent, RunEvent.runnerEnter,
   RunEvent.printRunnerCreated, RunEvent.deployCall, RunEvent.printDeployed,
   RunEvent.runnerExit, RunEvent.printServiceRunning,
   RunEvent.sleepKeepAlive 1000]

/-- run_deployment: its event trace and its return value, the deploy
manager created inside deploy_agent. -/
def runDeployment : List RunEvent × LocalDeployManager :=
  (runDeploymentTrace, deployAgentResult)

/-- A concrete agent reply function used to instantiate the loop theorems
on a closed input. -/
def sampleAgent : String → String := fun s => String.append "reply to " s

/-- A concrete user-input stream whose third typed text is "exit". -/
def sampleStream : Nat → String := fun k => if k = 2 then "exit" else "hi"

/-- C1: a malformed configuration push never replaces the previously
committed valid snapshot.  For a push sequence valid, malformed, valid2:
after the malformed push the registry still holds the first valid
snapshot (so every read between the malformed push and the arrival of
valid2 returns it), the parse failure is only logged (the watcher step is
a total function and merely reports the failure), and the later valid2
push is committed as usual. -/
theorem malformed_push_keeps_valid_snapshot
    (parse : String → Option LiveAgentConfig) (init : LiveAgentConfig)
    (v m v2 : String) (c1 c2 : LiveAgentConfig)
    (hv : parse v = some c1) (hm : parse m = none) (hv2 : parse v2 = some c2) :
    processPushes parse init [v, m] = c1
    ∧ (onChange parse (processPushes parse init [v]) m).2 = true
    ∧ processPushes parse init [v, m, v2] = c2 := by
  simp [processPushes, onChange, hv, hm, hv2]

/-- Witness for C1 at a concrete parser and push sequence. -/
theorem malformed_push_keeps_valid_snapshot_w :
    processPushes (fun s => if s = "bad" then none else some ⟨s, "mp", []⟩)
        ⟨"init", "mp", []⟩ ["p1", "bad"] = ⟨"p1", "mp", []⟩
    ∧ (onChange (fun s => if s = "bad" then none else some ⟨s, "mp", []⟩)
        (processPushes (fun s => if s = "bad" then none else some ⟨s, "mp", []⟩)
          ⟨"init", "mp", []⟩ ["p1"]) "bad").2 = true
    ∧ processPushes (fun s => if s = "bad" then none else some ⟨s, "mp", []⟩)
        ⟨"init", "mp", []⟩ ["p1", "bad", "p2"] = ⟨"p2", "mp", []⟩ :=
  malformed_push_keeps_valid_snapshot _ _ "p1" "bad" "p2" _ _
    (by decide) (by decide) (by decide)

/-- C3: for every sequence of configuration pushes, the registry's
current snapshot is either the initial value or one value that was
actually pushed — never a synthesized mix of two pushes, since a swap
replaces the whole immutable snapshot. -/
theorem currentConfig_initial_or_pushed (init : LiveAgentConfig)
    (pushes : List LiveAgentConfig) :
    currentConfig init pushes = init ∨ currentConfig init pushes ∈ pushes := by
  induction pushes generalizing init with
  | nil => exact Or.inl rfl
  | cons p rest ih =>
    have e : currentConfig init (p :: rest) = currentConfig p rest := rfl
    rcases ih p with h | h
    · exact Or.inr (by rw [e, h]; exact List.mem_cons_self p rest)
    · exact Or.inr (by rw [e]; exact List.mem_cons_of_mem p h)

/-- The toolkit lookup after a sync: a reachable server's entry holds its
freshly declared tools, an unreachable server's entry its last-known
tools. -/
theorem lookupTools_syncServers (results : String → Option (List String))
    (k : String) (state : List (String × List String)) :
    lookupTools k (syncServers state results)
      = (lookupTools k state).map (fun ts => (results k).getD ts) := by
  induction state with
  | nil => rfl
  | cons e rest ih =>
    by_cases h : k = e.1
    · simp [syncServers, lookupTools, h]
    · simpa [syncServers, lookupTools, h] using ih

/-- C5: a toolkit sync in which server A is unreachable and server B is
reachable keeps the last-known tools of A (they are not removed) and
records exactly the tools newly declared by B; the sync itself is a total
function, so one server's failure never fails the whole refresh. -/
theorem partial_outage_isolated
    (state : List (String × List String))
    (results : String → Option (List String)) (A B : String)
    (tsA tsB tsB2 : List String)
    (hA : lookupTools A state = some tsA) (hrA : results A = none)
    (hB : lookupTools B state = some tsB) (hrB : results B = some tsB2) :
    lookupTools A (syncServers state results) = some tsA
    ∧ lookupTools B (syncServers state results) = some tsB2 := by
  constructor
  · simp [lookupTools_syncServers, hA, hrA]
  · simp [lookupTools_syncServers, hB, hrB]

/-- Witness for C5 at a concrete toolkit state and fetch outcome. -/
theorem partial_outage_isolated_w :
    lookupTools "A" (syncServers [("A", ["a1"]), ("B", ["b1"])]
        (fun s => if s = "B" then some ["b2"] else none)) = some ["a1"]
    ∧ lookupTools "B" (syncServers [("A", ["a1"]), ("B", ["b1"])]
        (fun s => if s = "B" then some ["b2"] else none)) = some ["b2"] :=
  partial_outage_isolated [("A", ["a1"]), ("B", ["b1"])]
    (fun s => if s = "B" then some ["b2"] else none) "A" "B" ["a1"] ["b1"] ["b2"]
    (by decide) (by decide) (by decide) (by decide)

/-- Membership in a synced tool set is exactly membership in the newly
declared remote set. -/
theorem mem_syncToolSet (t : String) (prev remote : List String) :
    t ∈ syncToolSet prev remote ↔ t ∈ remote := by
  simp only [syncToolSet, applyEvents, diffEvents, List.mem_append,
    List.mem_filter, decide_eq_true_eq]
  tauto

/-- C6: the tool-set diff is idempotent — after applying a sync with the
remote set once, diffing the resulting toolkit state against the same
remote set produces no add events and no remove events. -/
theorem toolset_diff_idempotent (prev remote : List String) :
    diffEvents (syncToolSet prev remote) remote = ([], []) := by
  have h1 : remote.filter (fun t => decide (t ∉ syncToolSet prev remote)) = [] := by
    rw [List.filter_eq_nil_iff]
    intro t ht
    simp [mem_syncToolSet, ht]
  have h2 : (syncToolSet prev remote).filter (fun t => decide (t ∉ remote)) = [] := by
    rw [List.filter_eq_nil_iff]
    intro t ht
    simp [(mem_syncToolSet t prev remote).mp ht]
  simp only [diffEvents]
  rw [h1, h2]

/-- C10: in run_deployment the deployment happens inside the async-with
block (position 4, before the Runner exit at position 6), the Runner
context teardown runs before the keep-alive message and the 1000-second
sleep (positions 7 and 8), each of these events occurs exactly once, and
the function returns the deploy manager built by deploy_agent. -/
theorem runner_exits_before_keepalive :
    runDeployment.1.get? 4 = some RunEvent.deployCall
    ∧ runDeployment.1.get? 6 = some RunEvent.runnerExit
    ∧ runDeployment.1.get? 7 = some RunEvent.printServiceRunning
    ∧ runDeployment.1.get? 8 = some (RunEvent.sleepKeepAlive 1000)
    ∧ runDeployment.1.count RunEvent.deployCall = 1
    ∧ runDeployment.1.count RunEvent.runnerExit = 1
    ∧ runDeployment.1.count (RunEvent.sleepKeepAlive 1000) = 1
    ∧ runDeployment.2 = deployAgentResult := by
  decide

/-- C2: every configuration access within one conversational turn observes
the single snapshot read from the registry at that turn's start, namely
the initial value updated by exactly the swap batches delivered during
earlier turns — so a swap delivered mid-turn takes effect no earlier than
the next turn boundary. -/
theorem turn_uses_single_snapshot (c : LiveAgentConfig)
    (sched : List (List LiveAgentConfig)) (n : Nat)
    (h : n < (runTurns c sched).length) :
    ∀ a ∈ (runTurns c sched).get ⟨n, h⟩,
      snapshotOf a = (sched.take n).foldl applySwaps c := by
  induction sched generalizing c n with
  | nil => simp [runTurns] at h
  | cons swaps rest ih =>
    cases n with
    | zero =>
      intro a ha
      have e : (runTurns c (swaps :: rest)).get ⟨0, h⟩ = runTurn c := rfl
      rw [e] at ha
      simp only [runTurn, List.mem_cons, List.not_mem_nil, or_false] at ha
      rcases ha with rfl | rfl | rfl <;> rfl
    | succ n =>
      intro a ha
      have h2 : n < (runTurns (applySwaps c swaps) rest).length := by
        have hlen := h
        simp only [runTurns, List.length_cons] at hlen
        omega
      have e : (runTurns c (swaps :: rest)).get ⟨n + 1, h⟩
          = (runTurns (applySwaps c swaps) rest).get ⟨n, h2⟩ := rfl
      rw [e] at ha
      exact ih (applySwaps c swaps) n h2 a ha

/-- Witness for C2 at a concrete schedule: turn 1 observes the value
swapped in during turn 0. -/
theorem turn_uses_single_snapshot_w :
    (1 < (runTurns ⟨"P1", "mp", []⟩ [[⟨"P2", "mp", []⟩], []]).length)
    ∧ ∀ a ∈ (runTurns (⟨"P1", "mp", []⟩ : LiveAgentConfig)
          [[⟨"P2", "mp", []⟩], []]).get ⟨1, by decide⟩,
        snapshotOf a
          = ([[(⟨"P2", "mp", []⟩ : LiveAgentConfig)], []].take 1).foldl
              applySwaps ⟨"P1", "mp", []⟩ :=
  ⟨by decide, turn_uses_single_snapshot ⟨"P1", "mp", []⟩
    [[⟨"P2", "mp", []⟩], []] 1 (by decide)⟩

/-- C7: in every execution of the mcp_example setup, the stateful client
nacos-mcp-2 is connected at position 3 of the trace, strictly before any
registration of it with the toolkit and before any tool invocation,
while the stateless client nacos-mcp-1 is never connected (it needs no
session and no connect step). -/
theorem stateful_connect_before_use (invocations : List String) :
    (mcpTrace invocations).get? 3 = some (McpEvent.connect "nacos-mcp-2")
    ∧ (∀ i, (mcpTrace invocations).get? i
          = some (McpEvent.register "nacos-mcp-2") → 3 < i)
    ∧ (∀ i nm, (mcpTrace invocations).get? i = some (McpEvent.invoke nm) → 3 < i)
    ∧ McpEvent.connect "nacos-mcp-1" ∉ mcpTrace invocations := by
  refine ⟨rfl, ?_, ?_, ?_⟩
  · intro i hi
    rcases i with _ | _ | _ | _ | _ | _ | j
    · simp [mcpTrace, mcpSetupTrace] at hi
    · simp [mcpTrace, mcpSetupTrace] at hi
    · simp [mcpTrace, mcpSetupTrace] at hi
    · simp [mcpTrace, mcpSetupTrace] at hi
    · omega
    · simp [mcpTrace, mcpSetupTrace] at hi
    · omega
  · intro i nm hi
    rcases i with _ | _ | _ | _ | _ | _ | j
    · simp [mcpTrace, mcpSetupTrace] at hi
    · simp [mcpTrace, mcpSetupTrace] at hi
    · simp [mcpTrace, mcpSetupTrace] at hi
    · simp [mcpTrace, mcpSetupTrace] at hi
    · simp [mcpTrace, mcpSetupTrace] at hi
    · simp [mcpTrace, mcpSetupTrace] at hi
    · omega
  · simp [mcpTrace, mcpSetupTrace, List.mem_append, List.mem_map]

/-- Witness for C7: the registration of nacos-mcp-2 sits at position 4,
after its connect at position 3. -/
theorem stateful_connect_before_use_w :
    (mcpTrace ["get-weather"]).get? 3 = some (McpEvent.connect "nacos-mcp-2")
    ∧ 3 < 4 :=
  ⟨(stateful_connect_before_use ["get-weather"]).1,
   (stateful_connect_before_use ["get-weather"]).2.1 4 rfl⟩

/-- C8: ThreadedTerminalInput obtains the typed text by off-loading the
blocking input() call to an executor worker (never by blocking the loop
thread), returns it wrapped in a UserInputData with a single text block
and no structured input, and while that input is pending the event loop
can still run any other ready task. -/
theorem threaded_input_frees_loop (hint res : String) (others : List TaskState)
    (hothers : TaskState.blockingLoop ∉ others) (j : Nat)
    (hj : (actionTaskState (threadedTerminalInputCall hint res).1 :: others).get? j
        = some TaskState.ready) :
    (threadedTerminalInputCall hint res).1 = InputAction.runInExecutor hint
    ∧ (threadedTerminalInputCall hint res).2
        = { blocksInput := [{ type := "text", text := res }], structuredInput := none }
    ∧ loopCanRun (actionTaskState (threadedTerminalInputCall hint res).1 :: others) j
        = true := by
  refine ⟨rfl, rfl, ?_⟩
  have hany : (others.any (fun t => t == TaskState.blockingLoop)) = false := by
    cases hc : others.any (fun t => t == TaskState.blockingLoop) with
    | false => rfl
    | true =>
      obtain ⟨t, ht, htb⟩ := List.any_eq_true.mp hc
      rw [beq_iff_eq] at htb
      exact absurd (htb ▸ ht) hothers
  simp only [threadedTerminalInputCall, actionTaskState] at hj ⊢
  simp only [List.get?_eq_getElem?] at hj
  simp [loopCanRun, hj, hany]

/-- Witness for C8: alongside one other ready task, that task can run
while the input is pending. -/
theorem threaded_input_frees_loop_w :
    (threadedTerminalInputCall "User Input: " "hello").1
        = InputAction.runInExecutor "User Input: "
    ∧ (threadedTerminalInputCall "User Input: " "hello").2
        = { blocksInput := [{ type := "text", text := "hello" }],
            structuredInput := none }
    ∧ loopCanRun (actionTaskState (threadedTerminalInputCall "User Input: " "hello").1
        :: [TaskState.ready]) 1 = true :=
  threaded_input_frees_loop "User Input: " "hello" [TaskState.ready]
    (by decide) 1 (by decide)

/-- Unfolding of one loop iteration when the fresh user text is "exit". -/
theorem runLoop_trace_exit (agent : String → String) (stream : Nat → String)
    (n turn idx : Nat) (msg : String) (h : stream idx = "exit") :
    (runLoop agent stream (n + 1) turn idx msg).trace
      = [ConvEvent.agentCallStart turn, ConvEvent.agentCallEnd turn (agent msg),
         ConvEvent.userCallStart turn, ConvEvent.userCallEnd turn (stream idx)] := by
  simp [runLoop, h]

/-- Unfolding of one loop iteration when the fresh user text is not
"exit". -/
theorem runLoop_trace_cont (agent : String → String) (stream : Nat → String)
    (n turn idx : Nat) (msg : String) (h : ¬stream idx = "exit") :
    (runLoop agent stream (n + 1) turn idx msg).trace
      = [ConvEvent.agentCallStart turn, ConvEvent.agentCallEnd turn (agent msg),
         ConvEvent.userCallStart turn, ConvEvent.userCallEnd turn (stream idx)]
        ++ (runLoop agent stream n (turn + 1) (idx + 1) (stream idx)).trace := by
  simp [runLoop, h]

/-- Agent inputs of an iteration ending in "exit": only the incoming
message. -/
theorem runLoop_inputs_exit (agent : String → String) (stream : Nat → String)
    (n turn idx : Nat) (msg : String) (h : stream idx = "exit") :
    (runLoop agent stream (n + 1) turn idx msg).agentInputs = [msg] := by
  simp [runLoop, h]

/-- Agent inputs of a continuing iteration: the incoming message followed
by those of the remaining loop. -/
theorem runLoop_inputs_cont (agent : String → String) (stream : Nat → String)
    (n turn idx : Nat) (msg : String) (h : ¬stream idx = "exit") :
    (runLoop agent stream (n + 1) turn idx msg).agentInputs
      = msg :: (runLoop agent stream n (turn + 1) (idx + 1) (stream idx)).agentInputs := by
  simp [runLoop, h]

/-- Texts tested against "exit" in an iteration ending in "exit". -/
theorem runLoop_checked_exit (agent : String → String) (stream : Nat → String)
    (n turn idx : Nat) (msg : String) (h : stream idx = "exit") :
    (runLoop agent stream (n + 1) turn idx msg).exitChecked = [stream idx] := by
  simp [runLoop, h]

/-- Texts tested against "exit" in a continuing iteration. -/
theorem runLoop_checked_cont (agent : String → String) (stream : Nat → String)
    (n turn idx : Nat) (msg : String) (h : ¬stream idx = "exit") :
    (runLoop agent stream (n + 1) turn idx msg).exitChecked
      = stream idx :: (runLoop agent stream n (turn + 1) (idx + 1) (stream idx)).exitChecked := by
  simp [runLoop, h]

/-- Termination flag of an iteration ending in "exit". -/
theorem runLoop_term_exit (agent : String → String) (stream : Nat → String)
    (n turn idx : Nat) (msg : String) (h : stream idx = "exit") :
    (runLoop agent stream (n + 1) turn idx msg).terminated = true := by
  simp [runLoop, h]

/-- Termination flag of a continuing iteration. -/
theorem runLoop_term_cont (agent : String → String) (stream : Nat → String)
    (n turn idx : Nat) (msg : String) (h : ¬stream idx = "exit") :
    (runLoop agent stream (n + 1) turn idx msg).terminated
      = (runLoop agent stream n (turn + 1) (idx + 1) (stream idx)).terminated := by
  simp [runLoop, h]

/-- Every event emitted by the loop started at a given turn belongs to
that turn or a later one. -/
theorem runLoop_turn_lb (agent : String → String) (stream : Nat → String) :
    ∀ fuel turn idx msg e, e ∈ (runLoop agent stream fuel turn idx msg).trace →
      turn ≤ turnOf e := by
  intro fuel
  induction fuel with
  | zero =>
    intro turn idx msg e he
    simp [runLoop] at he
  | succ n ih =>
    intro turn idx msg e he
    by_cases h : stream idx = "exit"
    · rw [runLoop_trace_exit agent stream n turn idx msg h] at he
      simp only [List.mem_cons, List.not_mem_nil, or_false] at he
      rcases he with rfl | rfl | rfl | rfl <;> simp [turnOf]
    · rw [runLoop_trace_cont agent stream n turn idx msg h] at he
      simp only [List.mem_append, List.mem_cons, List.not_mem_nil, or_false] at he
      rcases he with (rfl | rfl | rfl | rfl) | hrest
      · simp [turnOf]
      · simp [turnOf]
      · simp [turnOf]
      · simp [turnOf]
      · exact Nat.le_of_succ_le
          (ih (turn + 1) (idx + 1) (stream idx) e hrest)

/-- The loop trace is strictly ordered: earlier turn first, and within a
turn the agent call starts, the agent call completes, the user call
starts, the user call completes. -/
theorem runLoop_ordered (agent : String → String) (stream : Nat → String) :
    ∀ fuel turn idx msg,
      List.Pairwise evBefore (runLoop agent stream fuel turn idx msg).trace := by
  intro fuel
  induction fuel with
  | zero =>
    intro turn idx msg
    simp [runLoop]
  | succ n ih =>
    intro turn idx msg
    by_cases h : stream idx = "exit"
    · rw [runLoop_trace_exit agent stream n turn idx msg h]
      simp [List.pairwise_cons, evBefore, turnOf, stepRank]
    · rw [runLoop_trace_cont agent stream n turn idx msg h]
      refine List.pairwise_append.mpr
        ⟨?_, ih (turn + 1) (idx + 1) (stream idx), ?_⟩
      · simp [List.pairwise_cons, evBefore, turnOf, stepRank]
      · intro a ha b hb
        have hb2 : turn + 1 ≤ turnOf b :=
          runLoop_turn_lb agent stream n (turn + 1) (idx + 1) (stream idx) b hb
        have ha2 : turnOf a = turn := by
          simp only [List.mem_cons, List.not_mem_nil, or_false] at ha
          rcases ha with rfl | rfl | rfl | rfl <;> rfl
        exact Or.inl (by omega)

/-- C4: turns of the conversation loop are strictly sequential — the
whole trace is pairwise ordered by evBefore, so every event of an earlier
turn (in particular the completion of its agent response and of its user
call) precedes every event of a later turn, and within one turn each
awaited call completes before the next begins. -/
theorem conversation_turns_sequential (agent : String → String)
    (stream : Nat → String) (fuel : Nat) :
    List.Pairwise evBefore (conversation agent stream fuel).trace := by
  simp only [conversation]
  refine List.Pairwise.cons ?_
    (List.Pairwise.cons ?_ (runLoop_ordered agent stream fuel 1 1 (stream 0)))
  · intro b hb
    simp only [List.mem_cons] at hb
    rcases hb with rfl | hb
    · exact Or.inr ⟨rfl, by simp [stepRank]⟩
    · exact Or.inl (lt_of_lt_of_le (by simp [turnOf])
        (runLoop_turn_lb agent stream fuel 1 1 (stream 0) b hb))
  · intro b hb
    exact Or.inl (lt_of_lt_of_le (by simp [turnOf])
      (runLoop_turn_lb agent stream fuel 1 1 (stream 0) b hb))

/-- With fuel left, the first message the loop hands to the agent is
exactly its incoming message. -/
theorem runLoop_head_input (agent : String → String) (stream : Nat → String)
    (fuel turn idx : Nat) (msg : String) (hf : 0 < fuel) :
    (runLoop agent stream fuel turn idx msg).agentInputs.head? = some msg := by
  cases fuel with
  | zero => exact absurd hf (Nat.lt_irrefl 0)
  | succ n =>
    by_cases h : stream idx = "exit"
    · rw [runLoop_inputs_exit agent stream n turn idx msg h]; rfl
    · rw [runLoop_inputs_cont agent stream n turn idx msg h]; rfl

/-- Every message the loop hands to the agent is either the loop's
incoming message or differs from "exit". -/
theorem runLoop_inputs_first_or_not_exit (agent : String → String)
    (stream : Nat → String) :
    ∀ fuel turn idx msg m,
      m ∈ (runLoop agent stream fuel turn idx msg).agentInputs →
        m = msg ∨ m ≠ "exit" := by
  intro fuel
  induction fuel with
  | zero =>
    intro turn idx msg m hm
    simp [runLoop] at hm
  | succ n ih =>
    intro turn idx msg m hm
    by_cases h : stream idx = "exit"
    · rw [runLoop_inputs_exit agent stream n turn idx msg h] at hm
      simp only [List.mem_cons, List.not_mem_nil, or_false] at hm
      exact Or.inl hm
    · rw [runLoop_inputs_cont agent stream n turn idx msg h] at hm
      simp only [List.mem_cons] at hm
      rcases hm with rfl | hm
      · exact Or.inl rfl
      · rcases ih (turn + 1) (idx + 1) (stream idx) m hm with rfl | hne
        · exact Or.inr h
        · exact Or.inr hne

/-- The loop breaks exactly when some tested text equals "exit". -/
theorem runLoop_exit_mem_iff (agent : String → String) (stream : Nat → String) :
    ∀ fuel turn idx msg,
      ("exit" ∈ (runLoop agent stream fuel turn idx msg).exitChecked
        ↔ (runLoop agent stream fuel turn idx msg).terminated = true) := by
  intro fuel
  induction fuel with
  | zero =>
    intro turn idx msg
    simp [runLoop]
  | succ n ih =>
    intro turn idx msg
    by_cases h : stream idx = "exit"
    · rw [runLoop_checked_exit agent stream n turn idx msg h,
          runLoop_term_exit agent stream n turn idx msg h]
      simp [h]
    · rw [runLoop_checked_cont agent stream n turn idx msg h,
          runLoop_term_cont agent stream n turn idx msg h]
      have hne : ¬("exit" = stream idx) := fun e => h e.symm
      simp [List.mem_cons, hne, ih (turn + 1) (idx + 1) (stream idx)]

/-- Every text the loop tests against "exit" is a user-typed text read
from the stream at or after the loop's reading position — never an agent
reply. -/
theorem runLoop_checked_are_user_msgs (agent : String → String)
    (stream : Nat → String) :
    ∀ fuel turn idx msg m,
      m ∈ (runLoop agent stream fuel turn idx msg).exitChecked →
        ∃ k, idx ≤ k ∧ m = stream k := by
  intro fuel
  induction fuel with
  | zero =>
    intro turn idx msg m hm
    simp [runLoop] at hm
  | succ n ih =>
    intro turn idx msg m hm
    by_cases h : stream idx = "exit"
    · rw [runLoop_checked_exit agent stream n turn idx msg h] at hm
      simp only [List.mem_cons, List.not_mem_nil, or_false] at hm
      exact ⟨idx, Nat.le_refl idx, hm⟩
    · rw [runLoop_checked_cont agent stream n turn idx msg h] at hm
      simp only [List.mem_cons] at hm
      rcases hm with rfl | hm
      · exact ⟨idx, Nat.le_refl idx, rfl⟩
      · obtain ⟨k, hk, he⟩ := ih (turn + 1) (idx + 1) (stream idx) m hm
        exact ⟨k, Nat.le_of_succ_le hk, he⟩

/-- C9: the conversation forwards the very first user text to the agent
unconditionally (even if it is "exit"), terminates exactly when some
user text after the first equals "exit" (within the modelled fuel), never
passes that terminating text to the agent — every non-first agent input
differs from "exit" — and only user-typed texts read from the stream at
positions at or after 1 are ever tested, never the agent's replies. -/
theorem conversation_exit_protocol (agent : String → String)
    (stream : Nat → String) (fuel : Nat) (hf : 0 < fuel) :
    (conversation agent stream fuel).agentInputs.head? = some (stream 0)
    ∧ (∀ m ∈ (conversation agent stream fuel).agentInputs,
        m = stream 0 ∨ m ≠ "exit")
    ∧ ("exit" ∈ (conversation agent stream fuel).exitChecked
        ↔ (conversation agent stream fuel).terminated = true)
    ∧ (∀ m ∈ (conversation agent stream fuel).exitChecked,
        ∃ k, 1 ≤ k ∧ m = stream k) := by
  refine ⟨?_, ?_, ?_, ?_⟩
  · simp only [conversation]
    exact runLoop_head_input agent stream fuel 1 1 (stream 0) hf
  · simp only [conversation]
    intro m hm
    exact runLoop_inputs_first_or_not_exit agent stream fuel 1 1 (stream 0) m hm
  · simp only [conversation]
    exact runLoop_exit_mem_iff agent stream fuel 1 1 (stream 0)
  · simp only [conversation]
    intro m hm
    exact runLoop_checked_are_user_msgs agent stream fuel 1 1 (stream 0) m hm

/-- Witness for C9 at a concrete agent, stream and fuel. -/
theorem conversation_exit_protocol_w :
    (0 : Nat) < 5
    ∧ ((conversation sampleAgent sampleStream 5).agentInputs.head?
        = some (sampleStream 0)
    ∧ (∀ m ∈ (conversation sampleAgent sampleStream 5).agentInputs,
        m = sampleStream 0 ∨ m ≠ "exit")
    ∧ ("exit" ∈ (conversation sampleAgent sampleStream 5).exitChecked
        ↔ (conversation sampleAgent sampleStream 5).terminated = true)
    ∧ (∀ m ∈ (conversation sampleAgent sampleStream 5).exitChecked,
        ∃ k, 1 ≤ k ∧ m = sampleStream k)) :=
  ⟨by decide, conversation_exit_protocol sampleAgent sampleStream 5 (by decide)⟩

end Nacos
